import Mathlib

/-!
Verification of the vehicle-registration dashboard core (src/app.py).

The development shallowly embeds the program's pure core:
* the synthetic data generator in load_data (lines 15-45), parameterized by
  its two random draws (the uniform integer base and the normal noise);
* the filter pipeline built from four boolean masks (lines 78-83);
* the aggregations: groupby-year + pct_change (107-108), groupby-manufacturer
  (115), groupby-(date, category) (122), the scalar total (90), the hardcoded
  2023/2022 year-over-year ratio generalized per the spec to a year argument
  (94-96), and the maximum date (99).

Dates are modelled as (year, month, day) triples, ordered by the injective
key y*10000 + m*100 + d, which agrees with calendar order on calendar dates.
Registration counts are naturals; percentage arithmetic is exact (ℚ), and a
zero denominator is modelled as an undefined (`none`) result.  The real-valued
mock-data arithmetic (numpy sin / normal noise) is embedded over ℝ.
-/

namespace VRDash

/-- A calendar date at daily resolution, as stored in the `date` column. -/
structure Date where
  year : ℕ
  month : ℕ
  day : ℕ
deriving DecidableEq, Repr

/-- Injective encoding of a date; agrees with calendar order on dates with
month ≤ 12 and day ≤ 31, hence models pandas Timestamp comparison. -/
def dateKey (d : Date) : ℕ := d.year * 10000 + d.month * 100 + d.day

/-- One row of the dataframe: the columns written by load_data
(date, year, quarter, month, category, manufacturer, registrations). -/
structure Record where
  date : Date
  year : ℕ
  quarter : String
  month : ℕ
  category : String
  manufacturer : String
  registrations : ℕ
deriving DecidableEq, Repr

/-- Boolean date comparison, embedding `df['date'] >= ...` / `<= ...`. -/
def dateLeB (a b : Date) : Bool := decide (dateKey a ≤ dateKey b)

/-- Row selection by a boolean mask: `df[mask]` keeps, in order, exactly the
rows whose mask entry is true. -/
def applyMask : List Record → List Bool → List Record
  | [], _ => []
  | _ :: _, [] => []
  | r :: rs, b :: bs => if b then r :: applyMask rs bs else applyMask rs bs

/-- The conjunction of the four filter masks of app.py lines 78-83:
date lower bound & date upper bound & category isin & manufacturer isin,
associated to the left as the pandas `&` chain is. -/
def filterMask (ds : List Record) (lo hi : Date) (cats mans : List String) : List Bool :=
  List.zipWith and
    (List.zipWith and
      (List.zipWith and
        (ds.map fun r => dateLeB lo r.date)
        (ds.map fun r => dateLeB r.date hi))
      (ds.map fun r => decide (r.category ∈ cats)))
    (ds.map fun r => decide (r.manufacturer ∈ mans))

/-- The filter pipeline: `filtered_df = df[(date >= lo) & (date <= hi) &
category.isin(cats) & manufacturer.isin(mans)]` (app.py lines 78-83). -/
def filterEngine (ds : List Record) (lo hi : Date) (cats mans : List String) : List Record :=
  applyMask ds (filterMask ds lo hi cats mans)

/-- The per-row predicate equivalent to the conjoined mask. -/
def recPred (lo hi : Date) (cats mans : List String) (r : Record) : Bool :=
  ((dateLeB lo r.date && dateLeB r.date hi) && decide (r.category ∈ cats))
    && decide (r.manufacturer ∈ mans)

/-- Distinct values of a column in order of first appearance
(pandas `Series.unique`, and the key set of a groupby). -/
def uniqueVals {α : Type} [DecidableEq α] : List α → List α
  | [] => []
  | x :: xs => x :: (uniqueVals xs).filter fun y => decide (y ≠ x)

/-- `filtered_df['registrations'].sum()` (app.py line 90). -/
def totalRegistrations (ds : List Record) : ℕ :=
  (ds.map Record.registrations).sum

/-- `filtered_df.groupby('year')['registrations'].sum()` (line 107): the
distinct years in ascending order, each with its summed registrations. -/
def yearTotals (ds : List Record) : List (ℕ × ℕ) :=
  (List.insertionSort (· ≤ ·) (uniqueVals (ds.map Record.year))).map
    fun y => (y, totalRegistrations (ds.filter fun r => decide (r.year = y)))

/-- `Series.pct_change() * 100` (line 108) along the list of (year, total)
rows: the first row's change is absent; every later row's change is
(current / previous - 1) * 100, carried as exact rationals. -/
def pctChange : Option ℕ → List (ℕ × ℕ) → List (ℕ × ℕ × Option ℚ)
  | _, [] => []
  | prev, (y, t) :: rest =>
      (y, t, prev.map fun p => ((t : ℚ) / (p : ℚ) - 1) * 100) :: pctChange (some t) rest

/-- The year-over-year growth table of app.py lines 107-108. -/
def yearOverYearGrowth (ds : List Record) : List (ℕ × ℕ × Option ℚ) :=
  pctChange none (yearTotals ds)

/-- Lexicographic comparison of character lists by code point. -/
def charsLe : List Char → List Char → Bool
  | [], _ => true
  | _ :: _, [] => false
  | c :: cs, d :: ds => if c = d then charsLe cs ds else decide (c < d)

/-- String comparison used to order groupby keys. -/
def strLeB (a b : String) : Bool := charsLe a.data b.data

/-- `filtered_df.groupby('manufacturer')['registrations'].sum()` (line 115):
one (manufacturer, total) row per distinct manufacturer, keys sorted. -/
def marketShare (ds : List Record) : List (String × ℕ) :=
  (List.insertionSort (fun a b => strLeB a b = true)
      (uniqueVals (ds.map Record.manufacturer))).map
    fun m => (m, totalRegistrations (ds.filter fun r => decide (r.manufacturer = m)))

/-- Comparison of (date, category) group keys: by date, then category. -/
def pairLeB (a b : Date × String) : Bool :=
  decide (dateKey a.1 < dateKey b.1) || (decide (dateKey a.1 = dateKey b.1) && strLeB a.2 b.2)

/-- `filtered_df.groupby(['date', 'category'])['registrations'].sum()`
(line 122): one row per distinct (date, category) pair, keys sorted. -/
def monthlyTrend (ds : List Record) : List ((Date × String) × ℕ) :=
  (List.insertionSort (fun a b => pairLeB a b = true)
      (uniqueVals (ds.map fun r => (r.date, r.category)))).map
    fun k => (k, totalRegistrations (ds.filter fun r => decide ((r.date, r.category) = k)))

/-- The scalar year-over-year metric of app.py lines 94-96, generalized from
the hardcoded 2023/2022 pair to an arbitrary year per spec §4.4:
(sum of year y / sum of year y-1 - 1) * 100, undefined (none) when the prior
year's total is zero. -/
def yoyGrowthForYear (ds : List Record) (y : ℕ) : Option ℚ :=
  let prev := totalRegistrations (ds.filter fun r => decide (r.year = y - 1))
  let cur := totalRegistrations (ds.filter fun r => decide (r.year = y))
  if prev = 0 then none else some (((cur : ℚ) / (prev : ℚ) - 1) * 100)

/-- Later of two dates. -/
def maxDate (a b : Date) : Date := if dateKey a ≤ dateKey b then b else a

/-- `filtered_df['date'].max()` (line 99): the maximum date present,
undefined (none) on an empty dataset. -/
def latestMonth : List Record → Option Date
  | [] => none
  | r :: rs => some ((rs.map Record.date).foldl maxDate r.date)

/-- The category list of load_data (app.py line 15). -/
def categoriesList : List String := ["2W", "3W", "4W"]

/-- The per-category manufacturer sets of load_data (lines 16-20);
`manufacturers.get(category, [])` returns [] for an unknown key. -/
def manufacturersFor : String → List String
  | "2W" => ["Hero", "Honda", "Bajaj", "TVS", "Royal Enfield"]
  | "3W" => ["Bajaj", "Mahindra", "Piaggio", "TVS"]
  | "4W" => ["Maruti", "Hyundai", "Tata", "Mahindra", "Kia", "Toyota"]
  | _ => []

/-- Gregorian leap-year test. -/
def isLeap (y : ℕ) : Bool := (y % 4 == 0 && y % 100 != 0) || y % 400 == 0

/-- Last day of a month. -/
def monthEndDay (y m : ℕ) : ℕ :=
  if m = 2 then (if isLeap y then 29 else 28)
  else if m = 4 ∨ m = 6 ∨ m = 9 ∨ m = 11 then 30
  else 31

/-- `pd.date_range('2019-01-01', '2023-12-31', freq='M')` (line 22):
the 60 month-end dates from 2019-01-31 to 2023-12-31. -/
def genDates : List Date :=
  (List.range 5).flatMap fun yi =>
    (List.range 12).map fun mi =>
      { year := 2019 + yi, month := mi + 1, day := monthEndDay (2019 + yi) (mi + 1) }

/-- The iteration order of the generator's nested loops (lines 25-27): one
(date, category, manufacturer) triple per record, dates outermost. -/
def genCombos : List (Date × String × String) :=
  genDates.flatMap fun d =>
    categoriesList.flatMap fun c =>
      (manufacturersFor c).map fun m => (d, c, m)

/-- `growth = (date.year - 2019) * 0.15` (line 29). -/
noncomputable def growthOf (y : ℕ) : ℝ := ((y : ℝ) - 2019) * 0.15

/-- `seasonality = np.sin((date.month - 1) * np.pi / 6) * 0.2` (line 30). -/
noncomputable def seasonalityOf (m : ℕ) : ℝ :=
  Real.sin (((m : ℝ) - 1) * Real.pi / 6) * 0.2

/-- Python `int()` applied to a real value: truncation toward zero. -/
noncomputable def truncZ (x : ℝ) : ℤ := if 0 ≤ x then ⌊x⌋ else ⌈x⌉

/-- `registrations = int(base * (1 + growth + seasonality + noise))`
(line 32), as a function of the record's date and its two random draws. -/
noncomputable def rawRegistrations (base : ℕ) (d : Date) (noise : ℝ) : ℤ :=
  truncZ ((base : ℝ) * (1 + growthOf d.year + seasonalityOf d.month + noise))

/-- One generated record (the dict appended at lines 34-42), given the random
draws for each loop iteration: `base = np.random.randint(1000, 5000)` and
`noise = np.random.normal(0, 0.1)` become functions of the iteration triple.
The stored count is `max(1000, registrations)` (line 41). -/
noncomputable def mkRecord (baseDraw : Date × String × String → ℕ)
    (noiseDraw : Date × String × String → ℝ) (c : Date × String × String) : Record :=
  { date := c.1
    year := c.1.year
    quarter := "Q" ++ toString ((c.1.month - 1) / 3 + 1)
    month := c.1.month
    category := c.2.1
    manufacturer := c.2.2
    registrations := (max 1000 (rawRegistrations (baseDraw c) c.1 (noiseDraw c))).toNat }

/-- The full synthetic dataset of load_data (lines 22-44), parameterized by
the random draws. -/
noncomputable def generateData (baseDraw : Date × String × String → ℕ)
    (noiseDraw : Date × String × String → ℝ) : List Record :=
  genCombos.map (mkRecord baseDraw noiseDraw)

/-- Modelled from the spec: the registration formula exactly as §4.2 and
claim C3 state it, with `round` (round to nearest) in place of the code's
`int` truncation; compared against `mkRecord` below. -/
noncomputable def roundRegistrations (base : ℕ) (d : Date) (noise : ℝ) : ℕ :=
  (max 1000 (round ((base : ℝ) * (1 + growthOf d.year + seasonalityOf d.month + noise)))).toNat

/-- The amended registration formula: truncation toward zero (Python `int`)
of the scaled base, then the clamp at 1000. -/
noncomputable def truncRegistrations (base : ℕ) (d : Date) (noise : ℝ) : ℕ :=
  (max 1000 (truncZ ((base : ℝ) * (1 + growthOf d.year + seasonalityOf d.month + noise)))).toNat

/-- First record of the spec §8 two-record scenario. -/
def rec2022 : Record :=
  ⟨⟨2022, 1, 31⟩, 2022, "Q1", 1, "2W", "Hero", 1000⟩

/-- Second record of the spec §8 two-record scenario. -/
def rec2023 : Record :=
  ⟨⟨2023, 1, 31⟩, 2023, "Q1", 1, "2W", "Hero", 1100⟩

/-- The spec §8 two-record dataset for the yoyGrowthForYear scenario. -/
def demoTwo : List Record := [rec2022, rec2023]

/-- A 2019 record with 1000 registrations, for the YoY table scenario. -/
def rec2019 : Record :=
  ⟨⟨2019, 6, 30⟩, 2019, "Q2", 6, "2W", "Hero", 1000⟩

/-- A 2020 record with 1500 registrations, for the YoY table scenario. -/
def rec2020 : Record :=
  ⟨⟨2020, 6, 30⟩, 2020, "Q2", 6, "2W", "Hero", 1500⟩

/-- Dataset with per-year totals 1000 (2019) and 1500 (2020). -/
def demoYoY : List Record := [rec2019, rec2020]

/-- A constant base draw of 2000. -/
def baseConst : Date × String × String → ℕ := fun _ => 2000

/-- A constant noise draw of 0.0003. -/
noncomputable def noiseConst : Date × String × String → ℝ := fun _ => 3 / 10000

/-- The first generated month-end date. -/
def dateJan2019 : Date := ⟨2019, 1, 31⟩

/-- The first loop iteration of the generator: January 2019, "2W", "Hero". -/
def comboA : Date × String × String := (dateJan2019, "2W", "Hero")

/-- A "3W" loop iteration of the generator. -/
def comboB : Date × String × String := (dateJan2019, "3W", "Bajaj")

/-- The first row of the YoY table of demoYoY. -/
def yoyRowA : ℕ × ℕ × Option ℚ := (2019, 1000, none)

/-- The second row of the YoY table of demoYoY, with its growth value in the
unevaluated form the table stores. -/
def yoyRowB : ℕ × ℕ × Option ℚ :=
  (2020, 1500, some ((((1500 : ℕ) : ℚ) / ((1000 : ℕ) : ℚ) - 1) * 100))

theorem applyMask_map (p : Record → Bool) : ∀ ds : List Record, applyMask ds (ds.map p) = ds.filter p := by
  intro ds
  induction ds with
  | nil => rfl
  | cons r rs ih =>
    simp only [List.map_cons, applyMask, List.filter_cons]
    by_cases h : p r <;> simp [h, ih]

theorem filterMask_eq_map (ds : List Record) (lo hi : Date) (cats mans : List String) :
    filterMask ds lo hi cats mans = ds.map (recPred lo hi cats mans) := by
  induction ds with
  | nil => rfl
  | cons r rs ih =>
    simp only [filterMask, List.map_cons, List.zipWith_cons_cons] at ih ⊢
    rw [ih]
    rfl

theorem filterEngine_eq_filter (ds : List Record) (lo hi : Date) (cats mans : List String) :
    filterEngine ds lo hi cats mans = ds.filter (recPred lo hi cats mans) := by
  rw [filterEngine, filterMask_eq_map, applyMask_map]

theorem mem_uniqueVals {α : Type} [DecidableEq α] (a : α) (l : List α) :
    a ∈ uniqueVals l ↔ a ∈ l := by
  induction l with
  | nil => simp [uniqueVals]
  | cons x xs ih =>
    by_cases h : a = x
    · subst h; simp [uniqueVals]
    · simp [uniqueVals, List.mem_filter, h, ih]

theorem nodup_uniqueVals {α : Type} [DecidableEq α] (l : List α) : (uniqueVals l).Nodup := by
  induction l with
  | nil => simp [uniqueVals]
  | cons x xs ih =>
    rw [uniqueVals]
    refine List.nodup_cons.mpr ⟨?_, ih.filter _⟩
    intro hmem
    rcases List.mem_filter.mp hmem with ⟨_, hne⟩
    simp at hne

/-- C1: the filter operation returns exactly the subsequence of input records
satisfying the date-range, category-membership and manufacturer-membership
conjunction, preserving input order (a sublist whose members, with
multiplicity, are exactly the satisfying records); an empty category or
manufacturer selection yields the empty dataset. -/
theorem filter_characterization (ds : List Record) (lo hi : Date) (cats mans : List String) :
    (filterEngine ds lo hi cats mans).Sublist ds ∧
    (∀ r : Record, r ∈ filterEngine ds lo hi cats mans ↔
      r ∈ ds ∧ dateKey lo ≤ dateKey r.date ∧ dateKey r.date ≤ dateKey hi ∧
        r.category ∈ cats ∧ r.manufacturer ∈ mans) ∧
    (∀ r : Record, (filterEngine ds lo hi cats mans).count r =
      if dateKey lo ≤ dateKey r.date ∧ dateKey r.date ≤ dateKey hi ∧
          r.category ∈ cats ∧ r.manufacturer ∈ mans
        then ds.count r else 0) ∧
    (cats = [] → filterEngine ds lo hi cats mans = []) ∧
    (mans = [] → filterEngine ds lo hi cats mans = []) := by
  rw [filterEngine_eq_filter]
  refine ⟨List.filter_sublist ds, ?_, ?_, ?_, ?_⟩
  · intro r
    simp only [List.mem_filter, recPred, dateLeB, Bool.and_eq_true, decide_eq_true_eq,
      and_assoc]
  · intro r
    by_cases h : dateKey lo ≤ dateKey r.date ∧ dateKey r.date ≤ dateKey hi ∧
        r.category ∈ cats ∧ r.manufacturer ∈ mans
    · rw [if_pos h]
      refine List.count_filter ?_
      simp only [recPred, dateLeB, Bool.and_eq_true, decide_eq_true_eq, and_assoc]
      exact h
    · rw [if_neg h]
      refine List.count_eq_zero.mpr ?_
      intro hmem
      rcases List.mem_filter.mp hmem with ⟨_, hp⟩
      simp only [recPred, dateLeB, Bool.and_eq_true, decide_eq_true_eq, and_assoc] at hp
      exact h hp
  · rintro rfl
    simp [recPred]
  · rintro rfl
    simp [recPred]

/-- Witness for C1 at a concrete dataset: an empty manufacturer selection
empties the result, and a record satisfying all predicates is kept. -/
theorem filter_characterization_witness :
    filterEngine demoTwo ⟨2022, 1, 1⟩ ⟨2023, 12, 31⟩ ["2W"] [] = [] ∧
    rec2022 ∈ filterEngine demoTwo ⟨2022, 1, 1⟩ ⟨2023, 12, 31⟩ ["2W"] ["Hero"] :=
  ⟨(filter_characterization demoTwo ⟨2022, 1, 1⟩ ⟨2023, 12, 31⟩ ["2W"] []).2.2.2.2 rfl,
    ((filter_characterization demoTwo ⟨2022, 1, 1⟩ ⟨2023, 12, 31⟩ ["2W"] ["Hero"]).2.1
      rec2022).mpr (by decide)⟩

/-- C7: the filter operation is idempotent: filtering an already-filtered
dataset with the same predicate set returns the same dataset. -/
theorem filter_idempotent (ds : List Record) (lo hi : Date) (cats mans : List String) :
    filterEngine (filterEngine ds lo hi cats mans) lo hi cats mans =
      filterEngine ds lo hi cats mans := by
  rw [filterEngine_eq_filter, filterEngine_eq_filter, List.filter_filter]
  simp [Bool.and_self]

/-- C10: filtering with predicates covering the dataset's full extent (date
bounds enclosing every record's date, as the minimum and maximum do, and the
distinct categories and manufacturers present) is the identity. -/
theorem filter_full_extent_identity (ds : List Record) (lo hi : Date)
    (hlo : ∀ r ∈ ds, dateKey lo ≤ dateKey r.date)
    (hhi : ∀ r ∈ ds, dateKey r.date ≤ dateKey hi) :
    filterEngine ds lo hi (uniqueVals (ds.map Record.category))
      (uniqueVals (ds.map Record.manufacturer)) = ds := by
  rw [filterEngine_eq_filter]
  refine List.filter_eq_self.mpr ?_
  intro r hr
  simp only [recPred, dateLeB, Bool.and_eq_true, decide_eq_true_eq]
  refine ⟨⟨⟨hlo r hr, hhi r hr⟩, ?_⟩, ?_⟩
  · exact (mem_uniqueVals _ _).mpr (List.mem_map_of_mem Record.category hr)
  · exact (mem_uniqueVals _ _).mpr (List.mem_map_of_mem Record.manufacturer hr)

/-- Witness for C10: on the two-record dataset, filtering with its actual
minimum and maximum dates and its distinct category and manufacturer values
returns the dataset unchanged. -/
theorem filter_full_extent_identity_witness :
    filterEngine demoTwo ⟨2022, 1, 31⟩ ⟨2023, 1, 31⟩
      (uniqueVals (demoTwo.map Record.category))
      (uniqueVals (demoTwo.map Record.manufacturer)) = demoTwo :=
  filter_full_extent_identity demoTwo ⟨2022, 1, 31⟩ ⟨2023, 1, 31⟩
    (by decide) (by decide)

theorem totalRegistrations_filter_partition (p : Record → Bool) (ds : List Record) :
    totalRegistrations (ds.filter p) + totalRegistrations (ds.filter fun r => ! p r)
      = totalRegistrations ds := by
  induction ds with
  | nil => rfl
  | cons r rs ih =>
    by_cases h : p r <;>
      simp only [totalRegistrations, List.filter_cons, h, Bool.not_true, Bool.not_false,
        decide_True, decide_False, if_true, if_false, List.map_cons, List.sum_cons,
        Bool.false_eq_true, Bool.true_eq_false, ite_true, ite_false] at ih ⊢ <;>
      omega

theorem sum_group_filters {κ : Type} [DecidableEq κ] (f : Record → κ) :
    ∀ (keys : List κ) (ds : List Record), keys.Nodup → (∀ r ∈ ds, f r ∈ keys) →
      (keys.map fun k => totalRegistrations (ds.filter fun r => decide (f r = k))).sum
        = totalRegistrations ds := by
  intro keys
  induction keys with
  | nil =>
    intro ds _ hcov
    obtain rfl : ds = [] := by
      cases ds with
      | nil => rfl
      | cons r rs => exact absurd (hcov r (List.mem_cons_self r rs)) (List.not_mem_nil _)
    rfl
  | cons k ks ih =>
    intro ds hnd hcov
    obtain ⟨hk, hksnd⟩ := List.nodup_cons.mp hnd
    have hmap : (ks.map fun q => totalRegistrations (ds.filter fun r => decide (f r = q)))
        = ks.map fun q => totalRegistrations
            ((ds.filter fun r => ! decide (f r = k)).filter fun r => decide (f r = q)) := by
      refine List.map_congr_left fun q hq => ?_
      congr 1
      rw [List.filter_filter]
      refine List.filter_congr fun r _ => ?_
      by_cases hfq : f r = q
      · have hqk : ¬ q = k := fun e => hk (e ▸ hq)
        simp [hfq, hqk]
      · simp [hfq]
    have hcov2 : ∀ r ∈ ds.filter fun r => ! decide (f r = k), f r ∈ ks := by
      intro r hr
      rcases List.mem_filter.mp hr with ⟨hrds, hnk⟩
      rcases List.mem_cons.mp (hcov r hrds) with h | h
      · simp [h] at hnk
      · exact h
    have ih2 := ih (ds.filter fun r => ! decide (f r = k)) hksnd hcov2
    simp only [List.map_cons, List.sum_cons]
    rw [hmap, ih2]
    exact totalRegistrations_filter_partition (fun r => decide (f r = k)) ds

/-- C6: the grouped projections conserve total mass: the manufacturer group
totals of marketShare and the (date, category) group totals of monthlyTrend
each sum to totalRegistrations of the same dataset. -/
theorem group_totals_mass (ds : List Record) :
    ((marketShare ds).map Prod.snd).sum = totalRegistrations ds ∧
    ((monthlyTrend ds).map Prod.snd).sum = totalRegistrations ds := by
  constructor
  · rw [marketShare, List.map_map]
    refine sum_group_filters Record.manufacturer _ ds
      (((List.perm_insertionSort _ _).symm).nodup (nodup_uniqueVals _)) ?_
    intro r hr
    exact (List.perm_insertionSort _ _).mem_iff.mpr
      ((mem_uniqueVals _ _).mpr (List.mem_map_of_mem Record.manufacturer hr))
  · rw [monthlyTrend, List.map_map]
    refine sum_group_filters (fun r => (r.date, r.category)) _ ds
      (((List.perm_insertionSort _ _).symm).nodup (nodup_uniqueVals _)) ?_
    intro r hr
    exact (List.perm_insertionSort _ _).mem_iff.mpr
      ((mem_uniqueVals _ _).mpr (List.mem_map_of_mem (fun r => (r.date, r.category)) hr))

theorem pctChange_map_fst (p : Option ℕ) (l : List (ℕ × ℕ)) :
    (pctChange p l).map (fun e => e.1) = l.map Prod.fst := by
  induction l generalizing p with
  | nil => rfl
  | cons a rest ih =>
    cases a with
    | mk y t => simp [pctChange, ih]

theorem pctChange_head (p : Option ℕ) (l : List (ℕ × ℕ)) (b : ℕ × ℕ × Option ℚ)
    (hb : (pctChange p l)[0]? = some b) :
    b.2.2 = p.map fun q => ((b.2.1 : ℚ) / (q : ℚ) - 1) * 100 := by
  cases l with
  | nil => simp [pctChange] at hb
  | cons a rest =>
    cases a with
    | mk y t =>
      rw [pctChange] at hb
      simp only [List.getElem?_cons, if_pos rfl] at hb
      rw [← Option.some_inj.mp hb]

theorem pctChange_consecutive (p : Option ℕ) (l : List (ℕ × ℕ)) :
    ∀ (i : ℕ) (a b : ℕ × ℕ × Option ℚ),
      (pctChange p l)[i]? = some a → (pctChange p l)[i + 1]? = some b →
      b.2.2 = some (((b.2.1 : ℚ) / (a.2.1 : ℚ) - 1) * 100) := by
  induction l generalizing p with
  | nil => intro i a b ha _; simp [pctChange] at ha
  | cons hd rest ih =>
    intro i a b ha hb
    cases hd with
    | mk y t =>
      cases i with
      | zero =>
        rw [pctChange] at ha hb
        simp only [List.getElem?_cons, if_pos rfl] at ha
        simp only [List.getElem?_cons, Nat.succ_ne_zero, if_false, Nat.add_sub_cancel,
          ite_false] at hb
        rw [pctChange_head (some t) rest b hb, ← Option.some_inj.mp ha]
        rfl
      | succ i =>
        rw [pctChange] at ha hb
        simp only [List.getElem?_cons, Nat.succ_ne_zero, if_false, Nat.add_sub_cancel,
          ite_false] at ha hb
        exact ih (some t) i a b ha hb

theorem pctChange_mem (p : Option ℕ) (l : List (ℕ × ℕ)) (e : ℕ × ℕ × Option ℚ)
    (he : e ∈ pctChange p l) : (e.1, e.2.1) ∈ l := by
  induction l generalizing p with
  | nil => simp [pctChange] at he
  | cons hd rest ih =>
    cases hd with
    | mk y t =>
      rw [pctChange] at he
      rcases List.mem_cons.mp he with h | h
      · rw [h]; exact List.mem_cons_self _ _
      · exact List.mem_cons_of_mem _ (ih (some t) h)

theorem yearTotals_total (ds : List Record) (y t : ℕ) (h : (y, t) ∈ yearTotals ds) :
    t = totalRegistrations (ds.filter fun r => decide (r.year = y)) := by
  rcases List.mem_map.mp h with ⟨y', _, heq⟩
  obtain ⟨h1, h2⟩ := Prod.mk.injEq .. |>.mp heq
  subst h1
  exact h2.symm

theorem yearTotals_map_fst (ds : List Record) :
    (yearTotals ds).map Prod.fst
      = List.insertionSort (· ≤ ·) (uniqueVals (ds.map Record.year)) := by
  rw [yearTotals, List.map_map]
  exact List.map_id _

/-- C2: yearOverYearGrowth lists the distinct years ascending, each with its
summed registrations; the first row's growth is absent and each later row's
growth is (thisYearTotal / previousYearTotal - 1) * 100 (the previous total
being nonzero); on per-year totals 1000 (2019) and 1500 (2020) the 2020
growth is exactly 50 and the 2019 growth is absent. -/
theorem yoy_growth_table (ds : List Record) :
    List.Sorted (· ≤ ·) ((yearOverYearGrowth ds).map fun e => e.1) ∧
    ((yearOverYearGrowth ds).map fun e => e.1).Perm (uniqueVals (ds.map Record.year)) ∧
    (∀ e ∈ yearOverYearGrowth ds,
      e.2.1 = totalRegistrations (ds.filter fun r => decide (r.year = e.1))) ∧
    (∀ a : ℕ × ℕ × Option ℚ, (yearOverYearGrowth ds)[0]? = some a → a.2.2 = none) ∧
    (∀ (i : ℕ) (a b : ℕ × ℕ × Option ℚ),
      (yearOverYearGrowth ds)[i]? = some a → (yearOverYearGrowth ds)[i + 1]? = some b →
      a.2.1 ≠ 0 → b.2.2 = some (((b.2.1 : ℚ) / (a.2.1 : ℚ) - 1) * 100)) ∧
    yearOverYearGrowth demoYoY = [(2019, 1000, none), (2020, 1500, some 50)] := by
  refine ⟨?_, ?_, ?_, ?_, ?_, ?_⟩
  · rw [yearOverYearGrowth, pctChange_map_fst, yearTotals_map_fst]
    exact List.sorted_insertionSort _ _
  · rw [yearOverYearGrowth, pctChange_map_fst, yearTotals_map_fst]
    exact List.perm_insertionSort _ _
  · intro e he
    exact yearTotals_total ds e.1 e.2.1 (pctChange_mem none (yearTotals ds) e he)
  · intro a ha
    rw [pctChange_head none (yearTotals ds) a ha]
    rfl
  · intro i a b ha hb _
    exact pctChange_consecutive none (yearTotals ds) i a b ha hb
  · have h1 : yearTotals demoYoY = [(2019, 1000), (2020, 1500)] := rfl
    rw [yearOverYearGrowth, h1, pctChange, pctChange, pctChange]
    norm_num

/-- Witness for C2 on the 2019/2020 dataset: applying the consecutive-rows
clause of the theorem at index 0 yields the 2020 growth value. -/
theorem yoy_growth_table_witness :
    yoyRowB.2.2 = some (((yoyRowB.2.1 : ℚ) / (yoyRowA.2.1 : ℚ) - 1) * 100) :=
  (yoy_growth_table demoYoY).2.2.2.2.1 0 yoyRowA yoyRowB rfl rfl (by decide)

/-- C5: the scalar year-over-year metric is undefined whenever the prior
year's total is zero, and on the two-record 2022/2023 scenario it returns
exactly 10 percent for 2023. -/
theorem yoy_growth_for_year_spec :
    (∀ (ds : List Record) (y : ℕ),
      totalRegistrations (ds.filter fun r => decide (r.year = y - 1)) = 0 →
      yoyGrowthForYear ds y = none) ∧
    yoyGrowthForYear demoTwo 2023 = some 10 := by
  constructor
  · intro ds y h
    rw [yoyGrowthForYear]
    simp [h]
  · have hprev : totalRegistrations (demoTwo.filter fun r => decide (r.year = 2023 - 1))
        = 1000 := rfl
    have hcur : totalRegistrations (demoTwo.filter fun r => decide (r.year = 2023))
        = 1100 := rfl
    rw [yoyGrowthForYear]
    rw [hprev, hcur]
    norm_num

/-- Witness for C5: on the empty dataset the prior-year total is zero, so the
metric is undefined. -/
theorem yoy_growth_for_year_spec_witness : yoyGrowthForYear [] 2023 = none :=
  yoy_growth_for_year_spec.1 [] 2023 rfl

/-- C4: every synthetically generated record has at least 1000
registrations, whatever the random draws produced. -/
theorem synthetic_registrations_min (baseDraw : Date × String × String → ℕ)
    (noiseDraw : Date × String × String → ℝ) :
    ∀ r ∈ generateData baseDraw noiseDraw, 1000 ≤ r.registrations := by
  intro r hr
  rcases List.mem_map.mp hr with ⟨c, _, rfl⟩
  show 1000 ≤ (max 1000 (rawRegistrations (baseDraw c) c.1 (noiseDraw c))).toNat
  have h := le_max_left (1000 : ℤ) (rawRegistrations (baseDraw c) c.1 (noiseDraw c))
  omega

/-- Witness for C4 at concrete draws, on the first generated record. -/
theorem synthetic_registrations_min_witness :
    1000 ≤ (mkRecord baseConst noiseConst comboA).registrations :=
  synthetic_registrations_min baseConst noiseConst (mkRecord baseConst noiseConst comboA)
    (List.mem_map_of_mem (mkRecord baseConst noiseConst) (by decide))

/-- C8: every synthetically generated record's manufacturer belongs to the
fixed manufacturer set of its category. -/
theorem manufacturer_in_category_set (baseDraw : Date × String × String → ℕ)
    (noiseDraw : Date × String × String → ℝ) :
    ∀ r ∈ generateData baseDraw noiseDraw,
      r.manufacturer ∈ manufacturersFor r.category := by
  intro r hr
  rcases List.mem_map.mp hr with ⟨c, hc, rfl⟩
  rcases List.mem_flatMap.mp hc with ⟨d, _, hrest⟩
  rcases List.mem_flatMap.mp hrest with ⟨cat, _, hm⟩
  rcases List.mem_map.mp hm with ⟨m, hm2, rfl⟩
  exact hm2

/-- Witness for C8 at concrete draws, on a generated "3W" record. -/
theorem manufacturer_in_category_set_witness :
    (mkRecord baseConst noiseConst comboB).manufacturer
      ∈ manufacturersFor (mkRecord baseConst noiseConst comboB).category :=
  manufacturer_in_category_set baseConst noiseConst (mkRecord baseConst noiseConst comboB)
    (List.mem_map_of_mem (mkRecord baseConst noiseConst) (by decide))

theorem growthOf_2019 : growthOf 2019 = 0 := by
  rw [growthOf]
  norm_num

theorem seasonalityOf_one : seasonalityOf 1 = 0 := by
  rw [seasonalityOf]
  have h : (((1 : ℕ) : ℝ) - 1) * Real.pi / 6 = 0 := by norm_num
  rw [h, Real.sin_zero, zero_mul]

theorem scaled_value_concrete :
    ((2000 : ℕ) : ℝ) * (1 + growthOf 2019 + seasonalityOf 1 + 3 / 10000) = 10003 / 5 := by
  rw [growthOf_2019, seasonalityOf_one]
  norm_num

theorem truncZ_concrete : truncZ (10003 / 5 : ℝ) = 2000 := by
  rw [truncZ, if_pos (by norm_num : (0 : ℝ) ≤ 10003 / 5)]
  refine Int.floor_eq_iff.mpr ?_
  constructor <;> norm_num

theorem round_concrete : round (10003 / 5 : ℝ) = 2001 := by
  rw [round_eq]
  refine Int.floor_eq_iff.mpr ?_
  constructor <;> norm_num

/-- C3 counterexample: with base 2000 and noise 0.0003 for January 2019
(growth and seasonality both zero), the scaled product is 2000.6; the code's
`int` truncation stores 2000, while the claimed `round` formula gives 2001,
so the generated record does not satisfy the rounded formula. -/
theorem synthetic_registrations_round_cex :
    mkRecord baseConst noiseConst comboA ∈ generateData baseConst noiseConst ∧
    (mkRecord baseConst noiseConst comboA).registrations = 2000 ∧
    roundRegistrations (baseConst comboA) comboA.1 (noiseConst comboA) = 2001 ∧
    (mkRecord baseConst noiseConst comboA).registrations
      ≠ roundRegistrations (baseConst comboA) comboA.1 (noiseConst comboA) := by
  have hreg : (mkRecord baseConst noiseConst comboA).registrations = 2000 := by
    show (max 1000 (truncZ (((2000 : ℕ) : ℝ)
      * (1 + growthOf 2019 + seasonalityOf 1 + 3 / 10000)))).toNat = 2000
    rw [scaled_value_concrete, truncZ_concrete]
    rfl
  have hround : roundRegistrations (baseConst comboA) comboA.1 (noiseConst comboA) = 2001 := by
    show (max 1000 (round (((2000 : ℕ) : ℝ)
      * (1 + growthOf 2019 + seasonalityOf 1 + 3 / 10000)))).toNat = 2001
    rw [scaled_value_concrete, round_concrete]
    rfl
  refine ⟨List.mem_map_of_mem (mkRecord baseConst noiseConst) (by decide), hreg, hround, ?_⟩
  rw [hreg, hround]
  omega

/-- C3 (amended): every generated record's registrations value equals
max(1000, trunc(base * (1 + growth + seasonality + noise))), where trunc is
truncation toward zero (Python int), growth = (year - 2019) * 0.15,
seasonality = sin((month - 1) * pi / 6) * 0.2, base the integer draw and
noise the normal draw of that loop iteration. -/
theorem synthetic_registrations_formula (baseDraw : Date × String × String → ℕ)
    (noiseDraw : Date × String × String → ℝ) (c : Date × String × String) :
    (mkRecord baseDraw noiseDraw c).registrations
      = truncRegistrations (baseDraw c) c.1 (noiseDraw c) := rfl

/-- C9: on an empty filtered dataset the total is 0, the latest month is
undefined, and the market-share and monthly-trend tables are empty. -/
theorem empty_dataset_metrics :
    totalRegistrations ([] : List Record) = 0 ∧
    latestMonth ([] : List Record) = none ∧
    marketShare ([] : List Record) = [] ∧
    monthlyTrend ([] : List Record) = [] :=
  ⟨rfl, rfl, rfl, rfl⟩

end VRDash
